import Mathlib

/-!
Shallow embedding of `dump_light_values.py` (BH1750 light-intensity CSV
logger) and verification of its specification claims.

Real-valued sensor readings are modelled as rationals (`ℚ`).  Python's
`round` (banker's rounding, half-to-even) is modelled by `pyRound`;
`statistics.median` by `med`/`medianE` (the fallible version models the
`StatisticsError` raised on empty input); `statistics.stdev` composed with
`round` by `roundSqrt ∘ sampleVar` (exact rational arithmetic, so the
value `round (√v)` is computed without leaving `ℚ`).
-/

namespace LightLogger

/-- Python `int(round(x))`: round half to even (banker's rounding).  With
`f = ⌊q⌋`, the fractional part is below `1/2` iff `2q < 2f + 1`, above it
iff `2f + 1 < 2q`, and on a tie the even of `f`, `f + 1` is taken. -/
def pyRound (q : ℚ) : ℤ :=
  let f := ⌊q⌋
  if 2 * q < 2 * f + 1 then f
  else if 2 * f + 1 < 2 * q then f + 1
  else if f % 2 = 0 then f else f + 1

/-- Insert into a sorted list (ascending). -/
def insertSorted (x : ℚ) : List ℚ → List ℚ
  | [] => [x]
  | y :: ys => if x ≤ y then x :: y :: ys else y :: insertSorted x ys

/-- Ascending sort, modelling Python `sorted` (a sorted list of rationals
is determined by the multiset of entries, so the algorithm choice is
immaterial). -/
def sortQ : List ℚ → List ℚ
  | [] => []
  | x :: xs => insertSorted x (sortQ xs)

/-- `statistics.median` on a non-empty list: middle element for odd
length, mean of the two middle elements for even length.  Junk value `0`
on the empty list; the fallible wrapper `medianE` models the exception. -/
def med (xs : List ℚ) : ℚ :=
  let s := sortQ xs
  let n := xs.length
  if n % 2 = 1 then s.getD (n / 2) 0
  else (s.getD (n / 2 - 1) 0 + s.getD (n / 2) 0) / 2

/-- `statistics.median`, raising (`none`) on empty input. -/
def medianE : List ℚ → Option ℚ
  | [] => none
  | x :: xs => some (med (x :: xs))

/-- Python `if not filtered: filtered = readings` (line 79-80): keep the
list unless it is empty, in which case take the fallback. -/
def orElseNonempty (l d : List ℚ) : List ℚ :=
  match l with
  | [] => d
  | _ => l

/-- Source `_aggregate_readings(readings)` (dump_light_values.py lines
66-82): `None` on empty input; a single reading short-circuits; otherwise
median `m`, absolute deviations, their median `mad`, threshold `2.0` when
`mad == 0` else `3.0 * 1.4826 * mad`, filter to deviations `≤ threshold`
keeping order, fall back to the whole input when the filter is empty
(Python `if not filtered`), and return
`(int(round(median(filtered))), filtered)`. -/
def aggregateReadings (readings : List ℚ) : Option (ℤ × List ℚ) :=
  match readings with
  | [] => none
  | [x] => some (pyRound x, [x])
  | _ => do
    let m ← medianE readings
    let devs := readings.map (fun x => |x - m|)
    let mad ← medianE devs
    let threshold : ℚ := if mad = 0 then 2 else 3 * (14826/10000) * mad
    let filtered0 := readings.filter (fun x => |x - m| ≤ threshold)
    let filtered := orElseNonempty filtered0 readings
    let repMed ← medianE filtered
    some (pyRound repMed, filtered)

/-- Python `min` over a non-empty list (junk `0` on empty). -/
def listMin : List ℚ → ℚ
  | [] => 0
  | x :: xs => xs.foldl min x

/-- Python `max` over a non-empty list (junk `0` on empty). -/
def listMax : List ℚ → ℚ
  | [] => 0
  | x :: xs => xs.foldl max x

/-- Sample variance with Bessel's correction, the quantity whose square
root `statistics.stdev` returns. -/
def sampleVar (xs : List ℚ) : ℚ :=
  let n : ℚ := xs.length
  let mean := xs.sum / n
  (xs.map (fun x => (x - mean) ^ 2)).sum / (n - 1)

/-- Ascending search for the least `k` with `4 * v ≤ (2 * k + 1) ^ 2`. -/
def sqrtNearAux (v : ℚ) : ℕ → ℕ → ℕ
  | 0, k => k
  | fuel + 1, k =>
      if 4 * v ≤ (2 * (k : ℚ) + 1) ^ 2 then k else sqrtNearAux v fuel (k + 1)

/-- Least `k` with `4 * v ≤ (2 * k + 1) ^ 2`, i.e. the nearest natural to
`√v` barring ties; the fuel `⌊v⌋ + 3` exceeds `√v + 1/2` for `v ≥ 0`. -/
def sqrtNear (v : ℚ) : ℕ := sqrtNearAux v (⌊v⌋.toNat + 3) 0

/-- `int(round(sqrt v))` for `v ≥ 0`, computed exactly on `ℚ`:
`round (√v) = k` when `(2k-1)² < 4v < (2k+1)²`, with the tie
`4v = (2k+1)²` (that is `√v = k + 1/2`) broken to even as Python's
`round` does. -/
def roundSqrt (v : ℚ) : ℤ :=
  let k := sqrtNear v
  if 4 * v = (2 * (k : ℚ) + 1) ^ 2 ∧ k % 2 = 1 then (k + 1 : ℕ) else k

/-- Source `_calculate_stats(values)` (lines 57-64): `(None, None, None,
None)` on empty input (Python `if not values`), else rounded min, max,
median and, when more than one value, rounded sample standard deviation
(`0` otherwise). -/
def calculateStats (values : List ℚ) : Option (ℤ × ℤ × ℤ × ℤ) :=
  match values with
  | [] => none
  | _ => some (pyRound (listMin values), pyRound (listMax values),
      pyRound (med values),
      if 1 < values.length then roundSqrt (sampleVar values) else 0)

/-- Outcome of one `sensor.read_lux()` call: a lux value, or a raised
exception (the `except` path of lines 95-101). -/
inductive Poll
  | ok (v : ℚ)
  | fail
deriving DecidableEq

/-- State left by the sampling `for` loop of lines 89-103: the collected
`samples`, the `consecutive_errors` counter, the `self.running` flag as
written by the loop (`false` exactly when the error threshold was hit at
line 100), the index of the next unconsumed sensor poll, and the number
of `time.sleep(sample_delay)` calls performed. -/
structure BurstResult where
  samples : List ℚ
  ce : ℕ
  running : Bool
  idx : ℕ
  sleeps : ℕ
deriving DecidableEq

/-- Source lines 90-103, the burst `for _ in range(readings_per_interval)`
loop.  `script` is the sensor oracle (poll `i` yields `script i`); `fuel`
counts the remaining iterations, starting at `n = readings_per_interval`.
A successful read appends the value and zeroes `consecutive_errors`; a
failed read increments it and, at `max_consecutive_errors`, sets
`self.running = False` and breaks; after either, `time.sleep(sample_delay)`
runs whenever `len(samples) < readings_per_interval`.  The loop body never
reads any stop request: `self.running` is not consulted between polls. -/
def burstGo (maxErr n : ℕ) (script : ℕ → Poll) :
    ℕ → ℕ → List ℚ → ℕ → ℕ → BurstResult
  | i, 0, samples, ce, sleeps => ⟨samples, ce, true, i, sleeps⟩
  | i, fuel + 1, samples, ce, sleeps =>
    match script i with
    | .ok v =>
        let samples := samples ++ [v]
        if samples.length < n then
          burstGo maxErr n script (i + 1) fuel samples 0 (sleeps + 1)
        else
          burstGo maxErr n script (i + 1) fuel samples 0 sleeps
    | .fail =>
        if maxErr ≤ ce + 1 then ⟨samples, ce + 1, false, i + 1, sleeps⟩
        else if samples.length < n then
          burstGo maxErr n script (i + 1) fuel samples (ce + 1) (sleeps + 1)
        else
          burstGo maxErr n script (i + 1) fuel samples (ce + 1) sleeps

/-- One whole burst: `fuel = n` iterations starting at poll `i` with the
inherited `consecutive_errors` value `ce`. -/
def runBurst (maxErr n : ℕ) (script : ℕ → Poll) (i ce : ℕ) : BurstResult :=
  burstGo maxErr n script i n [] ce 0

/-- State threaded through `_read_and_log_loop` across window iterations:
next poll index, `consecutive_errors` (initialised once, line 85), the
`self.running` flag, and the count of records appended to the CSV. -/
structure LoopState where
  idx : ℕ
  ce : ℕ
  running : Bool
  records : ℕ
deriving DecidableEq

/-- One iteration of the `while self.running` loop, lines 87-131 (the
timing code of lines 132-137 is modelled separately by `deadlineStep`).
`stopReq` records whether an external `stop()` set `self.running = False`
during this window; the first (and only) read of the flag after the burst
is line 104's `if not self.running: break`, so the flag seen there is the
burst's own value and-ed with the absence of an external stop.  `valid`
equals the burst's samples (`read_lux` never returns `None`); a record row
is appended whenever `valid` is non-empty and `_aggregate_readings`
returns a representative. -/
def windowStep (maxErr n : ℕ) (script : ℕ → Poll) (stopReq : Bool)
    (s : LoopState) : LoopState :=
  if s.running = false then s
  else
    let b := runBurst maxErr n script s.idx s.ce
    let running := b.running && !stopReq
    if running = false then ⟨b.idx, b.ce, false, s.records⟩
    else
      match b.samples with
      | [] => ⟨b.idx, b.ce, true, s.records⟩
      | v :: vs =>
        match aggregateReadings (v :: vs) with
        | none => ⟨b.idx, b.ce, true, s.records⟩
        | some _ => ⟨b.idx, b.ce, true, s.records + 1⟩

/-- Several consecutive `while`-loop iterations; the list holds one
external-stop flag per window. -/
def runLoop (maxErr n : ℕ) (script : ℕ → Poll) :
    List Bool → LoopState → LoopState
  | [], s => s
  | r :: rs, s => runLoop maxErr n script rs (windowStep maxErr n script r s)

/-- Source lines 132-137: `next_time += self.interval`, then
`sleep_for = next_time - time.time()`; sleep for `sleep_for` when it is
positive, else skip sleeping and set `next_time = time.time()`.  Returns
(duration slept, new `next_time`). -/
def deadlineStep (nextTime interval now : ℚ) : ℚ × ℚ :=
  let nt := nextTime + interval
  let sleepFor := nt - now
  if 0 < sleepFor then (sleepFor, nt) else (0, now)

/-- Lifecycle state seen by `start`/`stop`: the `self.running` flag and
the number of rows currently in the CSV file (header row included; the
constructor wrote the header, so a run starts at `rows = 1`). -/
structure ControllerState where
  running : Bool
  rows : ℕ
deriving DecidableEq

/-- Source lines 142-150 of `start()`: when already running, return at
once (second component `false`: no worker spawned, flag untouched);
otherwise set `running = True` and spawn the worker (`true`). -/
def startStep (s : ControllerState) : ControllerState × Bool :=
  if s.running then (s, false) else ({ s with running := true }, true)

/-- Source lines 157-171 of `stop()`: when not running, return at once;
otherwise set `self.running = False`, reread the CSV file and print the
record total only when `len(rows) > 1`.  The second component is the
reported count (`none` when nothing is printed).  `stop()` performs no
join on the worker thread. -/
def stopStep (s : ControllerState) : ControllerState × Option ℕ :=
  if s.running = false then (s, none)
  else ({ s with running := false },
    if 1 < s.rows then some (s.rows - 1) else none)

/-- `self.sample_delay = 0.1` (line 36), in seconds. -/
def sampleDelay : ℚ := 1/10

/-- The filtered subsequence as the spec describes it (§4.1 steps 2-4):
median `m`, MAD of the deviations, threshold `2.0` when `mad == 0` else
`3.0 × 1.4826 × mad`, the order-preserving subsequence of deviations
`≤ threshold`, falling back to the whole input when empty.  Stated
separately so the claims can compare `aggregateReadings` against it. -/
def aggFiltered (readings : List ℚ) : List ℚ :=
  let m := med readings
  let mad := med (readings.map fun z => |z - m|)
  let threshold : ℚ := if mad = 0 then 2 else 3 * (14826/10000) * mad
  let f0 := readings.filter fun z => |z - m| ≤ threshold
  orElseNonempty f0 readings

/-- Effect of one poll outcome on `consecutive_errors` (lines 94 and 96):
a success zeroes it, a failure increments it. -/
def ceStep (p : Poll) (ce : ℕ) : ℕ :=
  match p with
  | .ok _ => 0
  | .fail => ce + 1

/-- The value of `consecutive_errors` after the polls `i, …, i + k - 1`,
ignoring the halt check. -/
def ceAt (script : ℕ → Poll) (i ce0 : ℕ) : ℕ → ℕ
  | 0 => ce0
  | k + 1 => ceStep (script (i + k)) (ceAt script i ce0 k)

/-- A persisted record row (`include_stats = True`), without the two
timestamp columns: representative, then `min_lux`, `max_lux`, `avg_lux`
(the rounded median), `std_lux`, `sample_count` as written at
lines 120-127. -/
structure Rec where
  rep : ℤ
  vmin : ℤ
  vmax : ℤ
  vmid : ℤ
  spread : ℤ
  count : ℕ
deriving DecidableEq

/-- Record construction of lines 108-127 for a window with burst `valid`:
aggregate, and when a representative exists build the row from
`_calculate_stats(filtered)`, duplicating the representative (spread `0`)
when the stats come back `None`. -/
def windowRecord (valid : List ℚ) : Option Rec :=
  match aggregateReadings valid with
  | none => none
  | some (rep, filtered) =>
    match calculateStats filtered with
    | none => some ⟨rep, rep, rep, rep, 0, filtered.length⟩
    | some (vmin, vmax, vmid, vstd) =>
        some ⟨rep, vmin, vmax, vmid, vstd, filtered.length⟩

/-- Sensor script used for the cross-window error-accumulation scenario:
one good poll, every later poll fails. -/
def script10 : ℕ → Poll := fun j => if j < 1 then Poll.ok 1 else Poll.fail


lemma med_singleton (x : ℚ) : med [x] = x := by
  simp [med, sortQ, insertSorted]

lemma medianE_eq_some (l : List ℚ) (hl : l ≠ []) : medianE l = some (med l) := by
  cases l with
  | nil => exact absurd rfl hl
  | cons a as => rfl

lemma orElseNonempty_ne (l d : List ℚ) (hd : d ≠ []) :
    orElseNonempty l d ≠ [] := by
  cases l with
  | nil => exact hd
  | cons a as => simp [orElseNonempty]

lemma aggregate_cons₂ (x y : ℚ) (rest : List ℚ) :
    aggregateReadings (x :: y :: rest) =
      some (pyRound (med (aggFiltered (x :: y :: rest))),
        aggFiltered (x :: y :: rest)) := by
  simp only [aggregateReadings, aggFiltered]
  rw [medianE_eq_some _ (by simp)]
  simp only [Option.bind_eq_bind, Option.some_bind]
  rw [medianE_eq_some _ (by simp)]
  simp only [Option.some_bind]
  rw [medianE_eq_some _ (orElseNonempty_ne _ _ (by simp))]
  simp only [Option.some_bind]

lemma aggFiltered_ne (l : List ℚ) (hl : l ≠ []) : aggFiltered l ≠ [] := by
  unfold aggFiltered
  exact orElseNonempty_ne _ _ hl

/-- C1: for every input of two or more values, `_aggregate_readings`
computes the median `m`, the MAD of the absolute deviations, the
threshold (`2.0` when `mad == 0`, else `3.0 × 1.4826 × mad`), keeps in
original order exactly the values whose deviation from `m` is `≤`
threshold with the full input as fallback when that subsequence is empty
(all spelled out by `aggFiltered`), and returns the median of the
filtered sequence rounded to the nearest integer as representative. -/
theorem spec_C1_aggregate (readings : List ℚ) (h : 2 ≤ readings.length) :
    aggregateReadings readings =
      some (pyRound (med (aggFiltered readings)), aggFiltered readings) := by
  match readings with
  | [] => norm_num at h
  | [x] => norm_num at h
  | x :: y :: rest => exact aggregate_cons₂ x y rest

/-- Witness for C1 at the concrete burst `[1, 2, 3]`: median 2, MAD 1,
threshold `3 × 1.4826`, nothing filtered out, representative `2`. -/
theorem spec_C1_witness :
    2 ≤ ([1, 2, 3] : List ℚ).length ∧
      aggregateReadings [1, 2, 3] = some (2, [1, 2, 3]) := by
  refine ⟨by norm_num, (spec_C1_aggregate [1, 2, 3] (by norm_num)).trans ?_⟩
  norm_num [aggFiltered, med, sortQ, insertSorted, pyRound, orElseNonempty,
    List.filter_cons, decide_eq_true_eq]

/-- C2: on every non-empty input, `_aggregate_readings` raises no
exception (returns `some`) and the filtered list it returns is
non-empty. -/
theorem spec_C2_aggregate_total (readings : List ℚ) (h : readings ≠ []) :
    ∃ rep filtered,
      aggregateReadings readings = some (rep, filtered) ∧ filtered ≠ [] := by
  match readings with
  | [] => exact absurd rfl h
  | [x] => exact ⟨pyRound x, [x], rfl, by simp⟩
  | x :: y :: rest =>
    exact ⟨_, _, aggregate_cons₂ x y rest, aggFiltered_ne _ (by simp)⟩

/-- Witness for C2 at the concrete singleton burst `[5]`. -/
theorem spec_C2_witness :
    ([5] : List ℚ) ≠ [] ∧
      ∃ rep filtered,
        aggregateReadings [5] = some (rep, filtered) ∧ filtered ≠ [] :=
  ⟨by simp, spec_C2_aggregate_total [5] (by simp)⟩

/-- C7: on the burst `[100, 102, 98, 101, 5000]` the aggregator drops
`5000` (deviation 4899 from the median 101 exceeds the threshold
`3 × 1.4826 × 1`) and the representative is the rounded median of the
four remaining values (`round 100.5 = 100`). -/
theorem spec_C7_outlier_burst :
    aggregateReadings [100, 102, 98, 101, 5000]
        = some (100, [100, 102, 98, 101]) ∧
      (100 : ℤ) = pyRound (med [100, 102, 98, 101]) := by
  constructor
  · norm_num [aggregateReadings, medianE, med, sortQ, insertSorted, pyRound,
      orElseNonempty, List.filter_cons, decide_eq_true_eq]
  · norm_num [med, sortQ, insertSorted, pyRound]

/-- C3: after a window, `next_time` becomes `previous + interval` and the
loop sleeps exactly until it whenever that deadline is still ahead;
when the window overran (`sleep_for ≤ 0`) no sleep happens and
`next_time` is reset to `now`, so the following window's sleep deadline
is `now + interval`.  Consequently the slept duration is never negative
and, whenever time has reached the previous deadline, the new `next_time`
stays within `[now, now + interval]`: drift never accumulates beyond one
window period and no burst of back-to-back catch-up windows occurs. -/
theorem spec_C3_deadline_drift (nextTime interval now : ℚ)
    (h1 : nextTime ≤ now) (h2 : 0 ≤ interval) :
    (now < nextTime + interval →
        deadlineStep nextTime interval now
          = (nextTime + interval - now, nextTime + interval)) ∧
    (nextTime + interval ≤ now →
        deadlineStep nextTime interval now = (0, now) ∧
        (deadlineStep nextTime interval now).2 + interval = now + interval) ∧
    0 ≤ (deadlineStep nextTime interval now).1 ∧
    now ≤ (deadlineStep nextTime interval now).2 ∧
    (deadlineStep nextTime interval now).2 ≤ now + interval := by
  unfold deadlineStep
  rcases le_or_lt (nextTime + interval) now with hc | hc
  · rw [if_neg (by linarith)]
    refine ⟨fun h => absurd h (by linarith), fun _ => ⟨rfl, rfl⟩, ?_, ?_, ?_⟩
    · simp
    · simp
    · simp
      linarith
  · rw [if_pos (by linarith)]
    refine ⟨fun _ => rfl, fun h => absurd h (by linarith), ?_, ?_, ?_⟩
    · simp
      linarith
    · simp
      linarith
    · simp
      linarith

/-- Witness for C3 with `interval = 20` at `nextTime = 0`, `now = 3`:
the loop sleeps `17` up to the deadline `20`. -/
theorem spec_C3_witness :
    (0 : ℚ) ≤ 3 ∧ (0 : ℚ) ≤ 20 ∧ deadlineStep 0 20 3 = (17, 20) := by
  refine ⟨by norm_num, by norm_num,
    ((spec_C3_deadline_drift 0 20 3 (by norm_num) (by norm_num)).1
      (by norm_num)).trans ?_⟩
  norm_num

/-- C4, counterexample.  The claim asserts that a stop requested during
Sampling is honoured within one `sample_delay` and that every sleep is
interruptible within `min(sample_delay, 1)`.  In the code the burst loop
of lines 90-103 never reads `self.running`, and the sleeps are plain
`time.sleep` calls.  Concretely: in a five-poll all-successful burst with
a stop requested just after the second poll returns, the continuation
(modelled by `burstGo` resumed at poll 2 with the pending post-poll sleep
already counted) still performs 3 of the `sample_delay` sleeps and ends
with `running` still true, so the first stop check (line 104) happens no
sooner than `3 × sample_delay` after the request, which exceeds one
`sample_delay`; and the inter-window sleep of lines 133-135 is a single
sleep of a full 20-second period, exceeding `min(sample_delay, 1)`. -/
theorem spec_C4_counterexample :
    (burstGo 5 5 (fun _ => Poll.ok 100) 2 3 [100, 100] 0 1).sleeps = 3 ∧
    (burstGo 5 5 (fun _ => Poll.ok 100) 2 3 [100, 100] 0 1).running = true ∧
    ¬(3 * sampleDelay ≤ sampleDelay) ∧
    (deadlineStep 0 20 0).1 = 20 ∧ ¬((20 : ℚ) ≤ min sampleDelay 1) := by
  refine ⟨by decide, by decide, ?_, ?_, ?_⟩
  · norm_num [sampleDelay]
  · norm_num [deadlineStep]
  · norm_num [sampleDelay]

/-- C4, amended: if a stop is requested while the scheduler is sampling,
no record is written for that window and the worker leaves the loop with
`running = false` — but only once the burst's remaining polls and
inter-poll sleeps have completed (line 104 is the first read of the
flag), not within one `sample_delay`, and the inter-window sleep is a
single uninterruptible sleep of up to one window period. -/
theorem spec_C4_amended (maxErr n : ℕ) (script : ℕ → Poll) (s : LoopState)
    (h : s.running = true) :
    (windowStep maxErr n script true s).records = s.records ∧
    (windowStep maxErr n script true s).running = false := by
  unfold windowStep
  rw [h]
  simp

/-- Witness for the amended C4 at a concrete five-poll window. -/
theorem spec_C4_witness :
    (windowStep 5 5 (fun _ => Poll.ok 100) true ⟨0, 0, true, 0⟩).records = 0 ∧
    (windowStep 5 5 (fun _ => Poll.ok 100) true ⟨0, 0, true, 0⟩).running
      = false :=
  spec_C4_amended 5 5 (fun _ => Poll.ok 100) ⟨0, 0, true, 0⟩ rfl

lemma ceAt_shift (script : ℕ → Poll) (i ce0 : ℕ) (m : ℕ) :
    ceAt script i ce0 (m + 1)
      = ceAt script (i + 1) (ceStep (script i) ce0) m := by
  induction m with
  | zero => simp [ceAt]
  | succ m ih =>
      have harg : i + (m + 1) = (i + 1) + m := by omega
      calc ceAt script i ce0 (m + 1 + 1)
          = ceStep (script (i + (m + 1))) (ceAt script i ce0 (m + 1)) := rfl
        _ = ceStep (script ((i + 1) + m))
              (ceAt script (i + 1) (ceStep (script i) ce0) m) := by
            rw [harg, ih]
        _ = ceAt script (i + 1) (ceStep (script i) ce0) (m + 1) := rfl

lemma burst_halt_iff (maxErr n : ℕ) (script : ℕ → Poll) :
    ∀ fuel i samples ce0 sleeps,
      ((burstGo maxErr n script i fuel samples ce0 sleeps).running = false
        ↔ ∃ k < fuel, script (i + k) = Poll.fail ∧
            maxErr ≤ ceAt script i ce0 (k + 1)) := by
  intro fuel
  induction fuel with
  | zero =>
      intro i samples ce0 sleeps
      simp [burstGo]
  | succ fuel ih =>
      intro i samples ce0 sleeps
      cases hs : script i with
      | ok v =>
          have key : ∀ sl,
              ((burstGo maxErr n script (i + 1) fuel (samples ++ [v]) 0
                  sl).running = false
                ↔ ∃ k < fuel + 1, script (i + k) = Poll.fail ∧
                    maxErr ≤ ceAt script i ce0 (k + 1)) := by
            intro sl
            rw [ih (i + 1) (samples ++ [v]) 0 sl]
            constructor
            · rintro ⟨k, hk, hfail, hce⟩
              refine ⟨k + 1, by omega, ?_, ?_⟩
              · rwa [show i + (k + 1) = (i + 1) + k by omega]
              · rw [ceAt_shift, hs]
                simpa [ceStep] using hce
            · rintro ⟨k, hk, hfail, hce⟩
              match k with
              | 0 =>
                  rw [Nat.add_zero] at hfail
                  rw [hfail] at hs
                  exact absurd hs (by simp)
              | k + 1 =>
                  refine ⟨k, by omega, ?_, ?_⟩
                  · rwa [show (i + 1) + k = i + (k + 1) by omega]
                  · rw [ceAt_shift, hs] at hce
                    simpa [ceStep] using hce
          rw [show burstGo maxErr n script i (fuel + 1) samples ce0 sleeps
              = if (samples ++ [v]).length < n then
                  burstGo maxErr n script (i + 1) fuel (samples ++ [v]) 0
                    (sleeps + 1)
                else
                  burstGo maxErr n script (i + 1) fuel (samples ++ [v]) 0
                    sleeps
            from by simp [burstGo, hs]]
          split
          · exact key (sleeps + 1)
          · exact key sleeps
      | fail =>
          by_cases hth : maxErr ≤ ce0 + 1
          · rw [show burstGo maxErr n script i (fuel + 1) samples ce0 sleeps
                = ⟨samples, ce0 + 1, false, i + 1, sleeps⟩
              from by simp [burstGo, hs, hth]]
            simp only [iff_true_intro rfl, true_iff]
            exact ⟨0, by omega, by simpa using hs, by simpa [ceAt, ceStep, hs]⟩
          · have key : ∀ sl,
                ((burstGo maxErr n script (i + 1) fuel samples (ce0 + 1)
                    sl).running = false
                  ↔ ∃ k < fuel + 1, script (i + k) = Poll.fail ∧
                      maxErr ≤ ceAt script i ce0 (k + 1)) := by
              intro sl
              rw [ih (i + 1) samples (ce0 + 1) sl]
              constructor
              · rintro ⟨k, hk, hfail, hce⟩
                refine ⟨k + 1, by omega, ?_, ?_⟩
                · rwa [show i + (k + 1) = (i + 1) + k by omega]
                · rw [ceAt_shift, hs]
                  simpa [ceStep] using hce
              · rintro ⟨k, hk, hfail, hce⟩
                match k with
                | 0 =>
                    exfalso
                    apply hth
                    simpa [ceAt, ceStep, hs] using hce
                | k + 1 =>
                    refine ⟨k, by omega, ?_, ?_⟩
                    · rwa [show (i + 1) + k = i + (k + 1) by omega]
                    · rw [ceAt_shift, hs] at hce
                      simpa [ceStep] using hce
            rw [show burstGo maxErr n script i (fuel + 1) samples ce0 sleeps
                = if samples.length < n then
                    burstGo maxErr n script (i + 1) fuel samples (ce0 + 1)
                      (sleeps + 1)
                  else
                    burstGo maxErr n script (i + 1) fuel samples (ce0 + 1)
                      sleeps
              from by simp [burstGo, hs, hth]]
            split
            · exact key (sleeps + 1)
            · exact key sleeps

/-- C5: a burst halts the run (`running = False`, lines 98-101) exactly
when some failed poll pushes the consecutive-error counter to
`max_consecutive_errors`, where the counter evolution `ceAt` zeroes on
every success (line 94) and increments on every failure (line 96); hence
a failure history whose counter stays below the threshold — every run of
failures broken by a success in time — never halts the run. -/
theorem spec_C5_error_threshold (maxErr n : ℕ) (script : ℕ → Poll)
    (i ce0 : ℕ) :
    ((runBurst maxErr n script i ce0).running = false
      ↔ ∃ k < n, script (i + k) = Poll.fail ∧
          maxErr ≤ ceAt script i ce0 (k + 1)) ∧
    (∀ k v, script (i + k) = Poll.ok v → ceAt script i ce0 (k + 1) = 0) := by
  constructor
  · exact burst_halt_iff maxErr n script n i [] ce0 0
  · intro k v h
    simp [ceAt, ceStep, h]

/-- Witness for C5: an all-failure five-poll burst halts the run at the
default threshold of 5, and a success at poll 1 resets the counter. -/
theorem spec_C5_witness :
    (runBurst 5 5 (fun _ => Poll.fail) 0 0).running = false ∧
    ceAt (fun j => if j = 0 then Poll.fail else Poll.ok 1) 0 0 2 = 0 := by
  constructor
  · exact ((spec_C5_error_threshold 5 5 (fun _ => Poll.fail) 0 0).1).mpr
      ⟨4, by omega, rfl, by decide⟩
  · exact (spec_C5_error_threshold 5 5
      (fun j => if j = 0 then Poll.fail else Poll.ok 1) 0 0).2 1 1 rfl

/-- C6: the persisted derived statistics are computed over the
outlier-filtered list returned by the aggregator, not over the raw burst:
`min`, `max` and `median` are the rounded min, max and median of
`filtered`, the median column equals the representative, `spread` is the
rounded sample standard deviation of `filtered` when it has more than one
element and `0` otherwise, and `sample_count` is the filtered length. -/
theorem spec_C6_stats_on_filtered (valid : List ℚ) (h : valid ≠ []) :
    ∃ rep f, aggregateReadings valid = some (rep, f) ∧ f ≠ [] ∧
      windowRecord valid = some ⟨rep, pyRound (listMin f),
        pyRound (listMax f), pyRound (med f),
        if 1 < f.length then roundSqrt (sampleVar f) else 0, f.length⟩ ∧
      pyRound (med f) = rep := by
  match valid with
  | [] => exact absurd rfl h
  | [x] =>
      refine ⟨pyRound x, [x], rfl, by simp, rfl, by rw [med_singleton]⟩
  | x :: y :: rest =>
      have hagg := aggregate_cons₂ x y rest
      have hf : aggFiltered (x :: y :: rest) ≠ [] :=
        aggFiltered_ne _ (by simp)
      refine ⟨pyRound (med (aggFiltered (x :: y :: rest))),
        aggFiltered (x :: y :: rest), hagg, hf, ?_, rfl⟩
      unfold windowRecord
      rw [hagg]
      rcases hfc : aggFiltered (x :: y :: rest) with _ | ⟨a, as⟩
      · exact absurd hfc hf
      · rfl

/-- Witness for C6 at the burst `[10, 10, 30]` (MAD `0`, threshold `2`,
`30` filtered out). -/
theorem spec_C6_witness :
    ([10, 10, 30] : List ℚ) ≠ [] ∧
      ∃ rep f, aggregateReadings [10, 10, 30] = some (rep, f) ∧ f ≠ [] ∧
        windowRecord [10, 10, 30] = some ⟨rep, pyRound (listMin f),
          pyRound (listMax f), pyRound (med f),
          if 1 < f.length then roundSqrt (sampleVar f) else 0, f.length⟩ ∧
        pyRound (med f) = rep :=
  ⟨by simp, spec_C6_stats_on_filtered [10, 10, 30] (by simp)⟩

/-- C8: within a run the `running` flag never reverts to `true`:
`start()` on a running logger is a no-op that spawns nothing (lines
143-144), no branch of a scheduler window turns `running` back on, a
`stop()` call never turns it on, and once the flag is `false` the whole
remaining loop does nothing at all. -/
theorem spec_C8_running_monotone :
    (∀ s : ControllerState, s.running = true → startStep s = (s, false)) ∧
    (∀ maxErr n script stopReq (s : LoopState),
        (windowStep maxErr n script stopReq s).running = true →
          s.running = true) ∧
    (∀ s : ControllerState, (stopStep s).1.running = true →
        s.running = true) ∧
    (∀ maxErr n script (stops : List Bool) (s : LoopState),
        s.running = false → runLoop maxErr n script stops s = s) := by
  refine ⟨?_, ?_, ?_, ?_⟩
  · intro s h
    simp [startStep, h]
  · intro maxErr n script stopReq s h
    by_cases hr : s.running = false
    · unfold windowStep at h
      rw [if_pos hr] at h
      exact h
    · simpa using hr
  · intro s h
    by_cases hr : s.running = false
    · unfold stopStep at h
      rw [if_pos hr] at h
      exact h
    · simpa using hr
  · intro maxErr n script stops s h
    induction stops with
    | nil => rfl
    | cons r rs ih =>
        have hw : windowStep maxErr n script r s = s := by
          unfold windowStep
          rw [if_pos h]
        show runLoop maxErr n script rs (windowStep maxErr n script r s) = s
        rw [hw]
        exact ih

/-- Witness for C8: `start()` on an already-running controller returns
at once without touching the flag or spawning a worker. -/
theorem spec_C8_witness :
    startStep ⟨true, 1⟩ = (⟨true, 1⟩, false) :=
  spec_C8_running_monotone.1 ⟨true, 1⟩ rfl

/-- C9, counterexample.  The claim asserts `stop()` waits for the
scheduler and then returns a summary whose `records_written` equals the
records written this run.  On a running logger whose CSV holds only the
header row (zero records written), `stop()` (lines 157-171) prints
nothing at all — the count is reported only under `len(rows) > 1` — so no
summary with `records_written = 0` is produced (and the function performs
no wait on the worker and returns `None` rather than a summary). -/
theorem spec_C9_counterexample :
    stopStep ⟨true, 1⟩ = (⟨false, 1⟩, none) ∧
      (stopStep ⟨true, 1⟩).2 ≠ some (1 - 1) := by
  decide

/-- C9, amended: `stop()` is idempotent (a second call changes nothing
and reports nothing); on a running logger it clears the flag without
waiting for the worker and prints the data-row count `len(rows) - 1` —
the records written this run — but only when at least one record exists;
with zero records nothing is reported. -/
theorem spec_C9_amended :
    (∀ s : ControllerState, s.running = false → stopStep s = (s, none)) ∧
    (∀ s : ControllerState, stopStep (stopStep s).1 = ((stopStep s).1, none)) ∧
    (∀ s : ControllerState, s.running = true → 1 < s.rows →
        (stopStep s).1 = ⟨false, s.rows⟩ ∧
          (stopStep s).2 = some (s.rows - 1)) ∧
    (∀ s : ControllerState, s.running = true → ¬(1 < s.rows) →
        (stopStep s).1 = ⟨false, s.rows⟩ ∧ (stopStep s).2 = none) := by
  refine ⟨?_, ?_, ?_, ?_⟩
  · intro s h
    simp [stopStep, h]
  · intro s
    by_cases hr : s.running = false
    · simp [stopStep, hr]
    · simp [stopStep, hr]
  · intro s h hrows
    simp [stopStep, h, hrows]
  · intro s h hrows
    simp [stopStep, h, hrows]

/-- Witness for the amended C9: stopping a running logger whose file has
three rows (two records) reports a count of `2`. -/
theorem spec_C9_witness :
    (stopStep ⟨true, 3⟩).1 = ⟨false, 3⟩ ∧ (stopStep ⟨true, 3⟩).2 = some 2 :=
  spec_C9_amended.2.2.1 ⟨true, 3⟩ rfl (by norm_num)

/-- C10: `consecutive_errors` lives outside the window loop (line 85)
and is threaded through each window unchanged — a window hands the
burst's final counter to the next window — so failures in adjacent
windows with no success between them accumulate: with threshold 5 and
4-poll windows, a window ending in three failures (counter 3, run still
alive) followed by a window opening with two more failures crosses the
threshold and halts the run, although neither window alone saw five. -/
theorem spec_C10_counter_persists :
    (∀ maxErr n script (s : LoopState), s.running = true →
        (windowStep maxErr n script false s).ce
          = (runBurst maxErr n script s.idx s.ce).ce) ∧
    (runBurst 5 4 script10 0 0).running = true ∧
    (runBurst 5 4 script10 0 0).ce = 3 ∧
    runLoop 5 4 script10 [false, false] ⟨0, 0, true, 0⟩ = ⟨6, 5, false, 1⟩ := by
  refine ⟨?_, by decide, by decide, by decide⟩
  intro maxErr n script s h
  unfold windowStep
  rw [h]
  rw [if_neg (by simp)]
  simp only [Bool.not_false, Bool.and_true]
  split
  · rfl
  · split
    · rfl
    · split
      · rfl
      · rfl

/-- Witness for C10: the counter handed to the window after a
three-failure tail is the burst's final counter. -/
theorem spec_C10_witness :
    (windowStep 5 4 script10 false ⟨0, 0, true, 0⟩).ce
      = (runBurst 5 4 script10 0 0).ce :=
  spec_C10_counter_persists.1 5 4 script10 ⟨0, 0, true, 0⟩ rfl

end LightLogger
